import Mathlib

/-!
# Verification of the Smart-Email-Classifier ingestion pipeline

Shallow embedding, in Lean 4, of the core of the repository
`Smart-Email-Classifier` (Python): the Gmail body extractor and message
lister (`backend/gmail_client.py`), the `/fetch-and-classify` orchestrator
(`backend/main.py`), the classifier call contract
(`backend/ai_model/inference.py`), and the classified-email record store
(`backend/processed_emails_store.py`).  Python strings are modelled as Lean
strings (lists of unicode scalar values), bytes as `List Nat`, exceptions
as `Option`/`Except` results, and the durable stores as explicit values
threaded through the model.  Every definition is translated from the
source; the file ends with the theorems settling the specification claims.
-/

namespace SmartEmail

/-! ## Python string primitives

Helper functions mirroring the exact Python string operations the sources
use (`str.strip`, `str.lower`, `str.startswith`, `"\n\n".join`). -/

/-- Characters that Python `str.strip()` and the `\s` regex class treat as
whitespace (restricted to the ASCII range, which is all the sources and
claims exercise). -/
def pyIsSpace (c : Char) : Bool :=
  c = ' ' ∨ c = '\t' ∨ c = '\n' ∨ c = '\r' ∨ c = '\x0b' ∨ c = '\x0c'

/-- Python `str.strip()` on a list of characters: drop whitespace from both ends. -/
def pyStripList (l : List Char) : List Char :=
  ((l.dropWhile pyIsSpace).reverse.dropWhile pyIsSpace).reverse

/-- Python `str.strip()` with no arguments. -/
def pyStrip (s : String) : String :=
  String.mk (pyStripList s.data)

/-- ASCII lower-casing of one character, as `str.lower()` does on ASCII. -/
def pyCharLower (c : Char) : Char :=
  if 'A' ≤ c ∧ c ≤ 'Z' then Char.ofNat (c.toNat + 32) else c

/-- Python `str.lower()` (ASCII fragment). -/
def pyLower (s : String) : String :=
  String.mk (s.data.map pyCharLower)

/-- Whether the second list is an initial segment of the first. -/
def listStartsWith : List Char → List Char → Bool
  | _, [] => true
  | [], _ :: _ => false
  | a :: as, b :: bs => a = b && listStartsWith as bs

/-- Python `str.startswith(pre)`. -/
def pyStartsWith (s pre : String) : Bool :=
  listStartsWith s.data pre.data

/-- Python `"\n\n".join(chunks)`: concatenation with a blank-line
separator. -/
def joinBlank : List String → String
  | [] => ""
  | [s] => s
  | s :: rest => s ++ "\n\n" ++ joinBlank rest

/-! ## URL-safe base64 decoding (`_b64url_decode` in `gmail_client.py`)

The source right-pads the input with `=` to a multiple of 4 and calls
`base64.urlsafe_b64decode`, which translates `-`/`_` to `+`/`/` and feeds
the result to the CPython non-strict `binascii.a2b_base64`: characters
outside the alphabet are skipped, a pad character terminates the decode
once at least two data characters are pending in the current quad and the
pads complete it, and a leftover partial quad at the end is an error
(`None` here; the Python caller catches it). -/

/-- Value of one standard-alphabet base64 character, `none` when the
character is not in the alphabet. -/
def b64CharVal (c : Char) : Option Nat :=
  if 'A' ≤ c ∧ c ≤ 'Z' then some (c.toNat - 65)
  else if 'a' ≤ c ∧ c ≤ 'z' then some (c.toNat - 97 + 26)
  else if '0' ≤ c ∧ c ≤ '9' then some (c.toNat - 48 + 52)
  else if c = '+' then some 62
  else if c = '/' then some 63
  else none

/-- The alphabet translation of `base64.urlsafe_b64decode`: `-` to `+`
and `_` to `/`. -/
def b64Translate (c : Char) : Char :=
  if c = '-' then '+' else if c = '_' then '/' else c

/-- CPython `binascii.a2b_base64` in non-strict mode, over translated
characters.  State: position inside the current quad (0–3), pending bits,
count of consecutive pad characters seen, bytes produced so far. -/
def a2bBase64 : List Char → Nat → Nat → Nat → List Nat → Option (List Nat)
  | [], quad, _, _, out => if quad = 0 then some out else none
  | c :: rest, quad, left, pads, out =>
    if c = '=' then
      if 2 ≤ quad ∧ 4 ≤ quad + pads + 1 then some out
      else a2bBase64 rest quad left (pads + 1) out
    else
      match b64CharVal c with
      | none => a2bBase64 rest quad left pads out
      | some v =>
        match quad with
        | 0 => a2bBase64 rest 1 v 0 out
        | 1 => a2bBase64 rest 2 (v % 16) 0 (out ++ [left * 4 + v / 16])
        | 2 => a2bBase64 rest 3 (v % 4) 0 (out ++ [left * 16 + v / 4])
        | _ => a2bBase64 rest 0 0 0 (out ++ [left * 64 + v])

/-- Model of `base64.urlsafe_b64decode(s)`: translate the URL-safe alphabet and run
the non-strict decoder; `none` models the `binascii.Error` exception. -/
def pyUrlsafeB64Decode (s : String) : Option (List Nat) :=
  a2bBase64 (s.data.map b64Translate) 0 0 0 []

/-- The padding step of `_b64url_decode`:
`data += "=" * (-len(data) % 4)`. -/
def b64Pad (s : String) : String :=
  s ++ String.mk (List.replicate ((4 - s.length % 4) % 4) '=')

/-- Model of `_b64url_decode(data)` from `gmail_client.py`: right-pad with `=` to a
multiple of four, then URL-safe base64 decode; `none` models the raised
`binascii.Error`. -/
def b64urlDecode (data : String) : Option (List Nat) :=
  pyUrlsafeB64Decode (b64Pad data)

/-! ## UTF-8 decoding with `errors="ignore"`

`bytes.decode("utf-8", errors="ignore")`: standard UTF-8 decoding where
each maximal ill-formed subpart is silently dropped.  This function never
fails, mirroring the Python call. -/

/-- A UTF-8 continuation byte. -/
def utf8IsCont (b : Nat) : Bool :=
  128 ≤ b ∧ b ≤ 191

/-- Decode a UTF-8 byte sequence, dropping ill-formed subparts, as the
Python ignore error handler does. -/
def utf8Ignore : List Nat → List Char
  | [] => []
  | b :: rest =>
    if b ≤ 127 then Char.ofNat b :: utf8Ignore rest
    else if 194 ≤ b ∧ b ≤ 223 then
      match rest with
      | [] => []
      | b2 :: rest2 =>
        if utf8IsCont b2 then
          Char.ofNat ((b - 192) * 64 + (b2 - 128)) :: utf8Ignore rest2
        else utf8Ignore (b2 :: rest2)
    else if 224 ≤ b ∧ b ≤ 239 then
      match rest with
      | [] => []
      | [b2] =>
        if (if b = 224 then 160 ≤ b2 ∧ b2 ≤ 191
            else if b = 237 then 128 ≤ b2 ∧ b2 ≤ 159
            else utf8IsCont b2 = true) then []
        else utf8Ignore [b2]
      | b2 :: b3 :: rest3 =>
        if (if b = 224 then 160 ≤ b2 ∧ b2 ≤ 191
            else if b = 237 then 128 ≤ b2 ∧ b2 ≤ 159
            else utf8IsCont b2 = true) then
          if utf8IsCont b3 then
            Char.ofNat ((b - 224) * 4096 + (b2 - 128) * 64 + (b3 - 128)) ::
              utf8Ignore rest3
          else utf8Ignore (b3 :: rest3)
        else utf8Ignore (b2 :: b3 :: rest3)
    else if 240 ≤ b ∧ b ≤ 244 then
      match rest with
      | [] => []
      | [b2] =>
        if (if b = 240 then 144 ≤ b2 ∧ b2 ≤ 191
            else if b = 244 then 128 ≤ b2 ∧ b2 ≤ 143
            else utf8IsCont b2 = true) then []
        else utf8Ignore [b2]
      | [b2, b3] =>
        if (if b = 240 then 144 ≤ b2 ∧ b2 ≤ 191
            else if b = 244 then 128 ≤ b2 ∧ b2 ≤ 143
            else utf8IsCont b2 = true) then
          if utf8IsCont b3 then [] else utf8Ignore [b3]
        else utf8Ignore [b2, b3]
      | b2 :: b3 :: b4 :: rest4 =>
        if (if b = 240 then 144 ≤ b2 ∧ b2 ≤ 191
            else if b = 244 then 128 ≤ b2 ∧ b2 ≤ 143
            else utf8IsCont b2 = true) then
          if utf8IsCont b3 then
            if utf8IsCont b4 then
              Char.ofNat ((b - 240) * 262144 + (b2 - 128) * 4096 +
                (b3 - 128) * 64 + (b4 - 128)) :: utf8Ignore rest4
            else utf8Ignore (b4 :: rest4)
          else utf8Ignore (b3 :: b4 :: rest4)
        else utf8Ignore (b2 :: b3 :: b4 :: rest4)
    else utf8Ignore rest

/-- Python `bytes.decode("utf-8", errors="ignore")` as a string. -/
def utf8DecodeIgnore (bs : List Nat) : String :=
  String.mk (utf8Ignore bs)

/-- The `raw` value the extractor computes for one data field:
`_b64url_decode(data).decode("utf-8", errors="ignore")`, with the
surrounding `try`/`except` turning a decode failure into `""`. -/
def decodeDataText (data : String) : String :=
  match b64urlDecode data with
  | none => ""
  | some bytes => utf8DecodeIgnore bytes

end SmartEmail

namespace SmartEmail

/-! ## `_strip_html` (`gmail_client.py`)

Three deterministic passes mirroring the three `re.sub` calls:
line-break tags to newlines, remaining tags to spaces, whitespace runs to
single spaces, then `strip()`.  The first two passes scan left to right,
replacing each leftmost non-overlapping match exactly as `re.sub` does;
the patterns are unambiguous, so a maximal-munch scanner is exact. -/

/-- Attempt to match the regex pattern for a line-break tag
(`<` ws* `b|B` `r|R` ws* `/`? `>`) at the head of the list, returning the
remainder after the match. -/
def brMatch : List Char → Option (List Char)
  | '<' :: rest =>
    match rest.dropWhile pyIsSpace with
    | c1 :: r2 =>
      if c1 = 'b' ∨ c1 = 'B' then
        match r2 with
        | c2 :: r3 =>
          if c2 = 'r' ∨ c2 = 'R' then
            match r3.dropWhile pyIsSpace with
            | '/' :: '>' :: r5 => some r5
            | '>' :: r5 => some r5
            | _ => none
          else none
        | [] => none
      else none
    | [] => none
  | _ => none

/-- First pass of `_strip_html`: replace each line-break tag with a
newline.  Structural in a fuel argument; a successful match consumes at
least four characters and a failure consumes one, so fuel equal to the
input length is always sufficient and the exhaustion branch is
unreachable. -/
def replaceBrAux : Nat → List Char → List Char
  | _, [] => []
  | 0, l => l
  | fuel + 1, c :: cs =>
    match brMatch (c :: cs) with
    | some rest => '\n' :: replaceBrAux fuel rest
    | none => c :: replaceBrAux fuel cs

/-- The `re.sub` of the line-break-tag pattern with a newline. -/
def replaceBr (l : List Char) : List Char :=
  replaceBrAux l.length l

/-- Attempt to match the remaining-tag pattern (`<`, one or more
characters other than `>`, then `>`) at the head of the list, returning
the remainder. -/
def tagMatch : List Char → Option (List Char)
  | '<' :: c :: rest =>
    if c = '>' then none
    else
      match (c :: rest).dropWhile (fun x => ¬ x = '>') with
      | '>' :: r => some r
      | _ => none
  | _ => none

/-- Second pass of `_strip_html`: replace every remaining tag with a
single space.  Fuel as in `replaceBrAux`. -/
def replaceTagsAux : Nat → List Char → List Char
  | _, [] => []
  | 0, l => l
  | fuel + 1, c :: cs =>
    match tagMatch (c :: cs) with
    | some rest => ' ' :: replaceTagsAux fuel rest
    | none => c :: replaceTagsAux fuel cs

/-- The `re.sub` of the tag pattern with a space. -/
def replaceTags (l : List Char) : List Char :=
  replaceTagsAux l.length l

/-- Third pass: collapse each maximal run of whitespace to one space, as
`re.sub` of the whitespace-run pattern with a space.  The flag records
whether the previous character belonged to a whitespace run. -/
def collapseWsAux : Bool → List Char → List Char
  | _, [] => []
  | prevSpace, c :: cs =>
    if pyIsSpace c then
      if prevSpace then collapseWsAux true cs
      else ' ' :: collapseWsAux true cs
    else c :: collapseWsAux false cs

/-- Whitespace-run collapsing over a whole list. -/
def collapseWs (l : List Char) : List Char :=
  collapseWsAux false l

/-- Model of `_strip_html(html)` from `gmail_client.py`: break tags to newlines,
remaining tags to spaces, whitespace runs collapsed, then stripped. -/
def stripHtml (html : String) : String :=
  pyStrip (String.mk (collapseWs (replaceTags (replaceBr html.data))))

/-! ## The Gmail message payload tree and `extract_plaintext_from_message`

A `MsgPart` models one node of the `payload` JSON: a MIME type tag,
optional inline `body.data`, optional `body.attachmentId`, and the list of
child `parts`.  Absent or `null` JSON fields are `none`; a falsy (empty
string) value behaves identically to an absent one in the source, which
only tests truthiness. -/

inductive MsgPart where
  | mk (mimeType : Option String) (data : Option String)
       (attachmentId : Option String) (parts : List MsgPart)
deriving Repr

def MsgPart.mimeType : MsgPart → Option String
  | .mk m _ _ _ => m

def MsgPart.data : MsgPart → Option String
  | .mk _ d _ _ => d

def MsgPart.attachmentId : MsgPart → Option String
  | .mk _ _ a _ => a

def MsgPart.parts : MsgPart → List MsgPart
  | .mk _ _ _ ps => ps

mutual
/-- Model of `_gather_parts(payload)`: yield the node and then its nested parts
depth-first, in structural order (the explicit stack in the source with
reversed pushes produces exactly this preorder). -/
def gatherParts : MsgPart → List MsgPart
  | .mk m d a ps => .mk m d a ps :: gatherPartsList ps

/-- Preorder traversal of a list of sibling parts, left to right. -/
def gatherPartsList : List MsgPart → List MsgPart
  | [] => []
  | p :: ps => gatherParts p ++ gatherPartsList ps
end

/-- One step of the chunk-collection loop in
`extract_plaintext_from_message`: given the plain-text and markup chunk
lists accumulated so far, process one traversed part. -/
def collectChunk (acc : List String × List String) (part : MsgPart) :
    List String × List String :=
  let mime := pyLower (part.mimeType.getD "")
  let data := part.data.getD ""
  if data = "" ∧ ¬ part.attachmentId.getD "" = "" then acc
  else
    let raw := if ¬ data = "" then decodeDataText data else ""
    if pyStartsWith mime "text/plain" ∧ ¬ raw = "" then
      (acc.1 ++ [pyStrip raw], acc.2)
    else if pyStartsWith mime "text/html" ∧ ¬ raw = "" then
      (acc.1, acc.2 ++ [raw])
    else acc

/-- The `plain_chunks` and `html_chunks` lists after the traversal loop. -/
def chunksOf (payload : MsgPart) : List String × List String :=
  (gatherParts payload).foldl collectChunk ([], [])

/-- Model of `extract_plaintext_from_message(msg_data)` from `gmail_client.py`.
The argument models `msg_data.get("payload") or {}`: `none` stands for a
missing or falsy message or payload, for which the source returns `""`.
Plain-text chunks win; otherwise markup chunks are combined and stripped;
otherwise the data attached directly to the root node is decoded. -/
def extractPlaintext (payloadOpt : Option MsgPart) : String :=
  match payloadOpt with
  | none => ""
  | some payload =>
    let chunks := chunksOf payload
    if ¬ chunks.1 = [] then
      pyStrip (joinBlank (chunks.1.filter (fun c => ¬ c = "")))
    else if ¬ chunks.2 = [] then
      stripHtml (joinBlank chunks.2)
    else
      match payload.data with
      | none => ""
      | some d =>
        if ¬ d = "" then
          match b64urlDecode d with
          | none => ""
          | some bytes => pyStrip (utf8DecodeIgnore bytes)
        else ""

/-- The decoded content, before any stripping, of one traversed part when
the source classifies it as a plain-text chunk: truthy `data`, MIME type
lower-casing to a `text/plain` value, and a non-empty decode. -/
def plainSelect (part : MsgPart) : Option String :=
  let mime := pyLower (part.mimeType.getD "")
  let data := part.data.getD ""
  if data = "" ∧ ¬ part.attachmentId.getD "" = "" then none
  else
    let raw := if ¬ data = "" then decodeDataText data else ""
    if pyStartsWith mime "text/plain" ∧ ¬ raw = "" then some raw
    else none

/-- The decoded content of one traversed part when the source classifies
it as a markup chunk. -/
def htmlSelect (part : MsgPart) : Option String :=
  let mime := pyLower (part.mimeType.getD "")
  let data := part.data.getD ""
  if data = "" ∧ ¬ part.attachmentId.getD "" = "" then none
  else
    let raw := if ¬ data = "" then decodeDataText data else ""
    if pyStartsWith mime "text/plain" ∧ ¬ raw = "" then none
    else if pyStartsWith mime "text/html" ∧ ¬ raw = "" then some raw
    else none

/-- The decoded contents, before any stripping, of the traversed parts the
source classifies as plain text, in depth-first structural order of the
traversal. -/
def plainRawsOf (payload : MsgPart) : List String :=
  (gatherParts payload).filterMap plainSelect

/-- The decoded contents of the traversed parts the source classifies as
markup, in depth-first structural order. -/
def htmlRawsOf (payload : MsgPart) : List String :=
  (gatherParts payload).filterMap htmlSelect

end SmartEmail

namespace SmartEmail

/-! ## Classifier contract (`ai_model/inference.py`, `simple_main.py`)

`EmailClassifier.predict` never raises: it returns a result dict with
`success`, `top_categories`, and (on success) `top_2_categories`.  The
orchestrator reads categories as
`result.get("top_2_categories") or result.get("top_categories", [])`. -/

structure ClassResult where
  success : Bool
  /-- The `top_2_categories` entry; `[]` models both a missing key and an
  empty list, which the truthiness-based read treats identically. -/
  top2 : List String
  /-- The `top_categories` entry. -/
  top : List String
deriving Repr, DecidableEq

/-- Python `result.get("top_2_categories") or result.get("top_categories", [])`. -/
def ClassResult.readCats (r : ClassResult) : List String :=
  if ¬ r.top2 = [] then r.top2 else r.top

/-- The loaded classifier as the orchestrator sees it: whether
`simple_main.classifier` is non-`None`, and the behaviour of
`classifier.predict(subject, body, top_k=2)` (total: `predict` catches its
own exceptions and reports them through `success=False`). -/
structure ClassifierModel where
  loaded : Bool
  predict : String → String → ClassResult

/-- Keyword parameters accepted by `EmailClassifier.predict_batch`, from
its signature `def predict_batch(self, emails, top_k=2)` in
`ai_model/inference.py`. -/
def predictBatchAcceptedKwargs : List String := ["emails", "top_k"]

/-- Keyword arguments passed at the orchestrator batch call site,
`classifier.predict_batch(emails_for_batch, top_k=2, batch_size=3)` in
`main.py`. -/
def batchCallSiteKwargs : List String := ["top_k", "batch_size"]

/-- Python call semantics: a call raises `TypeError` when it passes a
keyword argument the callee signature does not accept. -/
def kwargsMismatch (accepted passed : List String) : Bool :=
  passed.any (fun k => ¬ accepted.contains k)

/-- Exceptions the batch-classification `try` block can raise. -/
inductive PyErr where
  | typeError
  | runtimeError
deriving Repr, DecidableEq

/-- Model of `model_predict_fn(subject, body)` from `main.py`: raises (`none`) when
the classifier is not loaded, the prediction is unsuccessful, or fewer
than two categories come back; otherwise returns the top two labels. -/
def modelPredictFn (c : ClassifierModel) (subject body : String) :
    Option (List String) :=
  if ¬ c.loaded then none
  else
    let res := c.predict subject body
    if ¬ res.success then none
    else
      let labels := res.readCats
      if labels.length < 2 then none else some (labels.take 2)

/-! ## `/fetch-and-classify` (`main.py`)

The model starts after authentication and service construction.  The
listing result, the processed-ID set at filter time, the fetch behaviour
(`get_message_plain`, whose failure for one ID is `none`), and the
classifier are inputs; the output is the response value together with the
ordered trace of durable-store operations the call performs. -/

/-- The normalized message dict `get_message_plain` returns.  All-string
fields; `date` may be `None`. -/
structure MsgInfo where
  id : String
  threadId : String
  date : Option String
  sender : String
  subject : String
  body : String
deriving Repr, DecidableEq

/-- One persisted item, as assembled by the orchestrator and stored in the
records store. -/
structure EmailItem where
  id : String
  threadId : String
  date : Option String
  sender : String
  subject : String
  body : String
  categories : List String
  processedAt : String
deriving Repr, DecidableEq

/-- Mutations of the two durable stores, in program order:
`STORE.add(id)` on the processed-ID store and
`EMAILS_STORE.upsert_many(records)` on the records store. -/
inductive StoreEvent where
  | addProcessed (id : String)
  | upsertMany (recs : List EmailItem)
deriving Repr, DecidableEq

/-- The response of `/fetch-and-classify` plus the store-operation trace. -/
structure FCResult where
  newCount : Nat
  processed : List EmailItem
  trace : List StoreEvent
deriving Repr, DecidableEq

/-- FILTERING, first half:
`ids_new_all = [mid for mid in ids if mid and not STORE.has(mid)]`. -/
def idsNewAll (ids processedIds : List String) : List String :=
  ids.filter (fun mid => ¬ mid = "" ∧ ¬ processedIds.contains mid)

/-- FILTERING, second half: `ids_new = ids_new_all[:max_results]`. -/
def idsNewOf (ids processedIds : List String) (maxResults : Nat) :
    List String :=
  (idsNewAll ids processedIds).take maxResults

/-- FETCHING: each surviving ID is fetched, a per-ID failure is logged and
skipped (`messages_data`). -/
def messagesDataOf (fetch : String → Option MsgInfo)
    (ids processedIds : List String) (maxResults : Nat) : List MsgInfo :=
  (idsNewOf ids processedIds maxResults).filterMap fetch

/-- The record dict built for one classified message. -/
def mkItem (info : MsgInfo) (cats : List String) (now : String) : EmailItem :=
  { id := info.id, threadId := info.threadId, date := info.date,
    sender := info.sender, subject := info.subject, body := info.body,
    categories := cats, processedAt := now }

/-- One iteration of the batch-success loop
`for info, result in zip(messages_data, batch_results)`: unsuccessful
results and results with fewer than two categories are skipped; otherwise
the item is appended and its ID added to the processed store.  The
accumulator is (`new_results`, IDs added so far). -/
def batchLoopStep (now : String) (acc : List EmailItem × List String)
    (pair : MsgInfo × ClassResult) : List EmailItem × List String :=
  let info := pair.1
  let result := pair.2
  if ¬ result.success then acc
  else
    let cats := result.readCats.take 2
    if cats.length < 2 then acc
    else (acc.1 ++ [mkItem info cats now], acc.2 ++ [info.id])

/-- The whole batch-success branch of the orchestrator. -/
def batchBranch (msgs : List MsgInfo) (results : List ClassResult)
    (now : String) : List EmailItem × List String :=
  (msgs.zip results).foldl (batchLoopStep now) ([], [])

/-- One message of the fallback loop: `model_predict_fn` may raise (the
inner `except` skips the message); a result that is not a two-element list
is skipped; otherwise the item is kept. -/
def fallbackItem (c : ClassifierModel) (now : String) (info : MsgInfo) :
    Option EmailItem :=
  match modelPredictFn c info.subject info.body with
  | none => none
  | some cats =>
    if ¬ cats.length = 2 then none
    else some (mkItem info cats now)

/-- The single-message fallback branch: every fetched message is attempted
individually; kept items and their processed-ID additions, in order. -/
def fallbackBranch (c : ClassifierModel) (msgs : List MsgInfo)
    (now : String) : List EmailItem × List String :=
  ((msgs.filterMap (fallbackItem c now)),
   (msgs.filterMap (fallbackItem c now)).map (fun it => it.id))

/-- The outcome of evaluating the batch `try` block up to and including
the call `simple_main.classifier.predict_batch(emails_for_batch, top_k=2,
batch_size=3)`: a `RuntimeError` when the classifier is `None`, a
`TypeError` when the call site passes a keyword the signature rejects,
otherwise the per-item results (`predict_batch` itself maps `predict`
over the inputs and never raises). -/
def attemptBatch (c : ClassifierModel) (msgs : List MsgInfo) :
    Except PyErr (List ClassResult) :=
  if ¬ c.loaded then .error .runtimeError
  else if kwargsMismatch predictBatchAcceptedKwargs batchCallSiteKwargs then
    .error .typeError
  else .ok (msgs.map (fun m => c.predict m.subject m.body))

/-- Core of the `/fetch-and-classify` handler after authentication,
parameterized by the outcome of the batch-classification `try` block so
that both the success branch and the fallback branch are covered; the
endpoint itself instantiates it with `attemptBatch`.  Returns the response
and the ordered durable-store trace: for each kept item the `STORE.add` happens
inside the classification loop, and a single
`EMAILS_STORE.upsert_many(new_results)` runs afterwards when any item was
kept. -/
def fetchAndClassifyCore (c : ClassifierModel)
    (fetch : String → Option MsgInfo) (now : String)
    (ids processedIds : List String) (maxResults : Nat)
    (batchOutcome : List MsgInfo → Except PyErr (List ClassResult)) :
    FCResult :=
  let msgs := messagesDataOf fetch ids processedIds maxResults
  if msgs = [] then { newCount := 0, processed := [], trace := [] }
  else
    let branch :=
      match batchOutcome msgs with
      | .ok results => batchBranch msgs results now
      | .error _ => fallbackBranch c msgs now
    let newResults := branch.1
    let adds := branch.2
    { newCount := newResults.length
      processed := newResults
      trace := adds.map StoreEvent.addProcessed ++
        (if newResults = [] then [] else [StoreEvent.upsertMany newResults]) }

/-- The `/fetch-and-classify` handler (post-authentication core), with the
batch attempt as the code performs it. -/
def fetchAndClassify (c : ClassifierModel)
    (fetch : String → Option MsgInfo) (now : String)
    (ids processedIds : List String) (maxResults : Nat) : FCResult :=
  fetchAndClassifyCore c fetch now ids processedIds maxResults
    (attemptBatch c)

/-- IDs added to the processed-ID store during the call, in order. -/
def markedIds (trace : List StoreEvent) : List String :=
  trace.filterMap (fun e =>
    match e with
    | .addProcessed id => some id
    | .upsertMany _ => none)

/-- IDs of records durably written to the records store during the call. -/
def persistedIds (trace : List StoreEvent) : List String :=
  trace.flatMap (fun e =>
    match e with
    | .addProcessed _ => []
    | .upsertMany recs => recs.map (fun r => r.id))

/-- The ordering property claimed by the specification: scanning the trace
in program order, every `addProcessed` names an ID some earlier
`upsertMany` already durably wrote.  The accumulator is the set of record
IDs persisted so far. -/
def addsAfterPersist : List StoreEvent → List String → Bool
  | [], _ => true
  | .upsertMany recs :: rest, persisted =>
    addsAfterPersist rest (persisted ++ recs.map (fun r => r.id))
  | .addProcessed id :: rest, persisted =>
    persisted.contains id && addsAfterPersist rest persisted

end SmartEmail

namespace SmartEmail

/-! ## `ProcessedEmailsStore` (`processed_emails_store.py`)

The on-disk JSON document is modelled by `StoreFile`: the shape this store
writes (`{"emails": {id: record, ...}}`, a wrapping object holding an
id-to-record map, insertion-ordered as Python dicts are) and the flat-list
shape.  `_read_json` returns whatever the file holds;
`data.get("emails", {}) if isinstance(data, dict) else {}` yields the
entry map for the wrapping shape and the empty map for anything that is
not a JSON object. -/

inductive StoreFile where
  /-- The wrapping object `{"emails": {id: record, ...}}` holding a
  nested id-to-record map. -/
  | wrappingMap (entries : List (String × EmailItem))
  /-- A flat list `[record, ...]` of record objects. -/
  | flatList (records : List EmailItem)
deriving Repr, DecidableEq

/-- Whether the document is the flat-list shape. -/
def StoreFile.isFlatList : StoreFile → Bool
  | .flatList _ => true
  | .wrappingMap _ => false

/-- Whether the document is the wrapping-object shape. -/
def StoreFile.isWrappingMap : StoreFile → Bool
  | .flatList _ => false
  | .wrappingMap _ => true

/-- Python `data.get("emails", {}) if isinstance(data, dict) else {}`: the entry
map read out of the document. -/
def readEmailsMap : StoreFile → List (String × EmailItem)
  | .wrappingMap entries => entries
  | .flatList _ => []

/-- Python dict assignment `emails[mid] = item`: replace in place when the
key exists, append otherwise (insertion order preserved). -/
def dictSet (entries : List (String × EmailItem)) (k : String)
    (v : EmailItem) : List (String × EmailItem) :=
  if entries.any (fun p => p.1 = k) then
    entries.map (fun p => if p.1 = k then (k, v) else p)
  else entries ++ [(k, v)]

/-- The document the constructor writes when the file is absent:
`{"emails": {}}`. -/
def storeInitFile : StoreFile := .wrappingMap []

/-- Model of `ProcessedEmailsStore.upsert(item)`: no-op for a blank ID, otherwise
read, set the entry, and atomically write `{"emails": emails}`. -/
def storeUpsert (file : StoreFile) (item : EmailItem) : StoreFile :=
  let mid := pyStrip item.id
  if mid = "" then file
  else .wrappingMap (dictSet (readEmailsMap file) mid item)

/-- Model of `ProcessedEmailsStore.upsert_many(items)`: read once, set every entry
with a non-blank ID, write `{"emails": emails}` once. -/
def storeUpsertMany (file : StoreFile) (items : List EmailItem) : StoreFile :=
  .wrappingMap (items.foldl (fun entries it =>
    let mid := pyStrip it.id
    if ¬ mid = "" then dictSet entries mid it else entries)
    (readEmailsMap file))

/-- Model of `ProcessedEmailsStore.overwrite_all(items)`: build a fresh entry map
from the items and write `{"emails": emails}`. -/
def storeOverwriteAll (items : List EmailItem) : StoreFile :=
  .wrappingMap (items.foldl (fun entries it =>
    let mid := pyStrip it.id
    if ¬ mid = "" then dictSet entries mid it else entries) [])

/-! ## `list_message_ids` (`gmail_client.py`)

The remote provider is modelled as a function from the index of the
issued page request to the outcome of that request: the raised exception,
or a response with its message list (the optional `id` of each message) and
optional continuation token.  The loop is structural in a fuel argument
counting page requests; each iteration issues exactly one request, so any
fuel at least the number of pages the provider can serve reproduces the
source loop exactly (the claims quantify over all fuels). -/

inductive PageResult where
  /-- The case where `req.execute()` raised. -/
  | fail
  /-- A response: the `resp.get("messages", []) or []` entries (for each
  entry its `m.get("id")`), and `resp.get("nextPageToken")` as a flag. -/
  | page (messages : List (Option String)) (hasNextToken : Bool)

/-- Python `[m.get("id") for m in messages if m.get("id")]`: keep the truthy
IDs. -/
def truthyIds (messages : List (Option String)) : List String :=
  messages.filterMap (fun m =>
    match m with
    | none => none
    | some s => if s = "" then none else some s)

/-- The paging loop of `list_message_ids`, returning the accumulated IDs
(before the final truncation) together with an observation log of the
issued page requests, one entry per request: the number of IDs
accumulated when the request was issued, paired with the page size asked
of the provider (`batch_size = min(remaining, 100)`).  Arguments after
the provider and `max_results`: fuel, next request index, IDs
accumulated, the `remaining` loop variable, request log.  Each iteration
issues exactly one request, so any fuel at least the number of pages the
provider can serve reproduces the source loop exactly; a provider failure
models the raised exception, on which the `except` around the loop stops
paging and falls through to the final truncated return. -/
def listLoop (provider : Nat → PageResult) (maxResults : Int) :
    Nat → Nat → List String → Int → List (Int × Int) →
      List String × List (Int × Int)
  | 0, _, ids, _, reqs => (ids, reqs)
  | fuel + 1, idx, ids, remaining, reqs =>
    if remaining ≤ 0 then (ids, reqs)
    else
      match provider idx with
      | .fail => (ids, reqs ++ [((ids.length : Int), min remaining 100)])
      | .page messages hasNext =>
        if messages = [] then
          (ids, reqs ++ [((ids.length : Int), min remaining 100)])
        else
          if ((ids ++ truthyIds messages).length : Int) ≥ maxResults then
            (ids ++ truthyIds messages,
             reqs ++ [((ids.length : Int), min remaining 100)])
          else if ¬ hasNext then
            (ids ++ truthyIds messages,
             reqs ++ [((ids.length : Int), min remaining 100)])
          else
            listLoop provider maxResults fuel (idx + 1)
              (ids ++ truthyIds messages)
              (maxResults - (ids ++ truthyIds messages).length)
              (reqs ++ [((ids.length : Int), min remaining 100)])

/-- Python list slicing `xs[:n]` for an `int` bound: a non-negative bound
keeps the first `n` elements, a negative bound drops the last `|n|`. -/
def pySliceTo (n : Int) (xs : List String) : List String :=
  if 0 ≤ n then xs.take n.toNat
  else xs.take (xs.length - (-n).toNat)

/-- Model of `list_message_ids(service, user_id, q, max_results)` from
`gmail_client.py`: initialize `remaining = max(1, int(max_results or
100))`, page until satisfied or failed, return `ids[:max_results]`
together with the request log.  The query string does not influence the
model; the provider function already reflects it. -/
def listMessageIds (provider : Nat → PageResult) (maxResults : Int)
    (fuel : Nat) : List String × List (Int × Int) :=
  let remaining : Int := max 1 (if maxResults = 0 then 100 else maxResults)
  let res := listLoop provider maxResults fuel 0 [] remaining []
  (pySliceTo maxResults res.1, res.2)

end SmartEmail

namespace SmartEmail

/-! ## Concrete inputs used by the claim witnesses -/

/-- A message with one plain-text leaf decoding to `hello` and one markup
leaf decoding to the tagged farewell. -/
def c7Tree : MsgPart :=
  .mk (some "multipart/alternative") none none
    [.mk (some "text/plain") (some "aGVsbG8=") none [],
     .mk (some "text/html") (some "PHA-YnllPC9wPg==") none []]

/-- A message with two plain-text leaves whose decoded contents are a
letter followed by a trailing space, and a bare letter: the trailing
space distinguishes the per-chunk strip the source performs from a
single trim of the joined result. -/
def c7StripTree : MsgPart :=
  .mk (some "multipart/alternative") none none
    [.mk (some "text/plain") (some "YSA=") none [],
     .mk (some "text/plain") (some "Yg==") none []]

/-- A message with three plain-text leaves decoding to a letter, a lone
space, and another letter: the whitespace-only chunk strips to the empty
string and is dropped from the join by the source. -/
def c7DropTree : MsgPart :=
  .mk (some "multipart/alternative") none none
    [.mk (some "text/plain") (some "YQ==") none [],
     .mk (some "text/plain") (some "IA==") none [],
     .mk (some "text/plain") (some "Yg==") none []]

/-- A message whose only leaf is markup decoding to a break-tagged
greeting. -/
def c9Tree : MsgPart :=
  .mk (some "multipart/alternative") none none
    [.mk (some "text/html") (some "SGk8YnI-dGhlcmU=") none []]

/-- A single node carrying malformed encoded data: one data character is
one more than a multiple of four, which the non-strict decoder rejects. -/
def c8Tree : MsgPart := .mk (some "text/plain") (some "a") none []

/-! ## Orchestrator helper definitions used by the theorems -/

/-- The item the batch-success loop keeps for one `zip` pair, or `none`
when the result of the pair is unsuccessful or yields fewer than two
categories: the per-pair characterization of `batchLoopStep`. -/
def batchSelItem (now : String) (pr : MsgInfo × ClassResult) :
    Option EmailItem :=
  if ¬ pr.2.success = true then none
  else if (pr.2.readCats.take 2).length < 2 then none
  else some (mkItem pr.1 (pr.2.readCats.take 2) now)

/-- The list of items the call keeps, for either outcome of the batch
attempt: the batch-success loop over the zipped results, or the
single-message fallback over the fetched set. -/
def coreItems (c : ClassifierModel) (fetch : String → Option MsgInfo)
    (now : String) (ids processedIds : List String) (maxResults : Nat)
    (batchOutcome : List MsgInfo → Except PyErr (List ClassResult)) :
    List EmailItem :=
  match batchOutcome (messagesDataOf fetch ids processedIds maxResults) with
  | .ok results =>
    ((messagesDataOf fetch ids processedIds maxResults).zip
      results).filterMap (batchSelItem now)
  | .error _ =>
    (messagesDataOf fetch ids processedIds maxResults).filterMap
      (fallbackItem c now)

/-- The fallback-only computation: the orchestrator with the batch-success
branch removed, classifying the fetched set one message at a time.  Claim
C4 compares the endpoint behaviour against this. -/
def fallbackOnly (c : ClassifierModel) (fetch : String → Option MsgInfo)
    (now : String) (ids processedIds : List String) (maxResults : Nat) :
    FCResult :=
  let msgs := messagesDataOf fetch ids processedIds maxResults
  if msgs = [] then { newCount := 0, processed := [], trace := [] }
  else
    let branch := fallbackBranch c msgs now
    { newCount := branch.1.length
      processed := branch.1
      trace := branch.2.map StoreEvent.addProcessed ++
        (if branch.1 = [] then [] else [StoreEvent.upsertMany branch.1]) }

/-! ## Concrete classifier, fetch, and store inputs for the witnesses -/

/-- A loaded classifier whose every prediction succeeds with two labels. -/
def okClassifier : ClassifierModel :=
  { loaded := true
    predict := fun _ _ =>
      { success := true, top2 := ["work", "personal"],
        top := ["work", "personal"] } }

/-- A loaded classifier whose every prediction reports failure. -/
def failClassifier : ClassifierModel :=
  { loaded := true
    predict := fun _ _ => { success := false, top2 := [], top := [] } }

/-- A fetcher returning a fixed normalized message for every ID. -/
def stubFetch : String → Option MsgInfo := fun mid =>
  some { id := mid, threadId := mid, date := none, sender := "alice",
         subject := "subj", body := "text" }

/-- A record with a non-blank ID, for the store witnesses. -/
def c2Item : EmailItem :=
  { id := "18c123", threadId := "t1", date := none, sender := "alice",
    subject := "Hello", body := "hi", categories := ["news", "deadlines"],
    processedAt := "2026-01-01T00:00:00Z" }

/-- Forty listed message IDs, for the filtering witness. -/
def c6Ids : List String :=
  (List.range 40).map (fun n => "msg" ++ toString n)

/-- Five of the forty IDs already marked processed. -/
def c6Processed : List String :=
  ["msg3", "msg7", "msg12", "msg25", "msg38"]

/-- A message and an unsuccessful classification result, for the
dropped-item witness. -/
def c5Msg : MsgInfo :=
  { id := "m9", threadId := "m9", date := none, sender := "bob",
    subject := "s", body := "b" }

/-- An unsuccessful classification result. -/
def c5FailResult : ClassResult := { success := false, top2 := [], top := [] }

/-! ## Chunk-collection lemmas for the extractor -/

theorem collectChunk_eq (acc : List String × List String) (p : MsgPart) :
    collectChunk acc p =
      (acc.1 ++ ((plainSelect p).map pyStrip).toList,
       acc.2 ++ (htmlSelect p).toList) := by
  simp only [collectChunk, plainSelect, htmlSelect]
  split_ifs <;> simp_all

theorem foldl_collectChunk (l : List MsgPart) (acc : List String × List String) :
    l.foldl collectChunk acc =
      (acc.1 ++ (l.filterMap plainSelect).map pyStrip,
       acc.2 ++ l.filterMap htmlSelect) := by
  induction l generalizing acc with
  | nil => simp
  | cons p ps ih =>
    rw [List.foldl_cons, ih, collectChunk_eq]
    cases hp : plainSelect p <;> cases hh : htmlSelect p <;>
      simp [List.filterMap_cons, hp, hh]

theorem chunksOf_eq (t : MsgPart) :
    chunksOf t = ((plainRawsOf t).map pyStrip, htmlRawsOf t) := by
  simp [chunksOf, foldl_collectChunk, plainRawsOf, htmlRawsOf]

theorem listStartsWith_append (l t : List Char) :
    listStartsWith (l ++ t) l = true := by
  induction l with
  | nil => cases t <;> rfl
  | cons a as ih => simp [listStartsWith, ih]

theorem self_mem_gatherParts (t : MsgPart) : t ∈ gatherParts t := by
  cases t with
  | mk m d a ps => simp [gatherParts]

/-! ## Claim theorems for the BodyExtractor (C7, C8, C9) -/

/-- C7 counterexample: the claimed value — the decoded plain-text
contents joined by a blank-line separator and then trimmed — differs from
what the extractor computes.  With decoded chunks of a letter with a
trailing space followed by a bare letter, the source strips each chunk
before joining, erasing the inner trailing space the claimed single trim
would keep; and with a whitespace-only chunk between two letters, the
source drops the chunk stripped to empty from the join, while the claimed
value keeps its separators. -/
theorem C7_counterexample :
    plainRawsOf c7StripTree = ["a ", "b"] ∧
    extractPlaintext (some c7StripTree) = "a\n\nb" ∧
    pyStrip (joinBlank (plainRawsOf c7StripTree)) = "a \n\nb" ∧
    ¬ extractPlaintext (some c7StripTree) =
        pyStrip (joinBlank (plainRawsOf c7StripTree)) ∧
    plainRawsOf c7DropTree = ["a", " ", "b"] ∧
    extractPlaintext (some c7DropTree) = "a\n\nb" ∧
    ¬ extractPlaintext (some c7DropTree) =
        pyStrip (joinBlank (plainRawsOf c7DropTree)) := by
  exact ⟨rfl, rfl, rfl, by decide, rfl, rfl, by decide⟩

/-- C7 (amended): for every message tree with at least one plain-text
chunk, the extraction result is the decoded plain-text contents, in
depth-first structural order, each stripped of surrounding whitespace,
with chunks stripped to the empty string dropped, joined by a blank-line
separator, and the whole trimmed; markup chunks are ignored. -/
theorem C7_plain_text_extraction (t : MsgPart)
    (hne : ¬ plainRawsOf t = []) :
    extractPlaintext (some t) =
      pyStrip (joinBlank (((plainRawsOf t).map pyStrip).filter
        (fun c => ¬ c = ""))) := by
  have hmapne : ¬ (plainRawsOf t).map pyStrip = [] := by
    simp [hne]
  simp [extractPlaintext, chunksOf_eq, hmapne]

/-- C7 witness: one plain leaf decoding to `hello` and one markup leaf
decoding to a tagged farewell give exactly `hello`. -/
theorem C7_witness :
    extractPlaintext (some c7Tree) = "hello" ∧
    plainRawsOf c7Tree = ["hello"] ∧
    extractPlaintext (some c7Tree) =
      pyStrip (joinBlank (((plainRawsOf c7Tree).map pyStrip).filter
        (fun c => ¬ c = ""))) := by
  refine ⟨rfl, rfl, ?_⟩
  exact C7_plain_text_extraction c7Tree (by decide)

/-- C9: when a message tree yields no plain-text chunk but at least one
markup chunk, the extraction result is the decoded markup contents joined
by a blank-line separator and normalized by `_strip_html` (break tags to
newlines, remaining tags stripped, whitespace runs collapsed, trimmed). -/
theorem C9_markup_fallback (t : MsgPart)
    (hplain : plainRawsOf t = [])
    (hhtml : ¬ htmlRawsOf t = []) :
    extractPlaintext (some t) = stripHtml (joinBlank (htmlRawsOf t)) := by
  simp [extractPlaintext, chunksOf_eq, hplain, hhtml]

/-- C9 witness: the sole markup leaf decoding to a break-tagged greeting
yields the greeting with the break collapsed to one space. -/
theorem C9_witness :
    extractPlaintext (some c9Tree) = "Hi there" ∧
    htmlRawsOf c9Tree = ["Hi<br>there"] ∧
    extractPlaintext (some c9Tree) = stripHtml (joinBlank (htmlRawsOf c9Tree)) := by
  refine ⟨rfl, rfl, ?_⟩
  exact C9_markup_fallback c9Tree (by decide) (by decide)

/-- C8: decoding safety of the extractor.  The padded input always has
length a multiple of four and extends the original input purely with pad
characters; a base64 decode failure makes the decoded text of the node empty;
and a tree whose every data field fails to decode extracts to the empty
string — the model is a total function, mirroring that the Python path
catches decode errors and never raises. -/
theorem C8_decode_never_raises (data : String) (t : MsgPart) :
    (b64Pad data).length % 4 = 0 ∧
    pyStartsWith (b64Pad data) data = true ∧
    (∀ c ∈ (b64Pad data).data.drop data.data.length, c = '=') ∧
    (b64urlDecode data = none → decodeDataText data = "") ∧
    ((∀ p ∈ gatherParts t, ∀ d, p.data = some d → b64urlDecode d = none) →
      extractPlaintext (some t) = "") := by
  have hdata : (b64Pad data).data =
      data.data ++ List.replicate ((4 - data.length % 4) % 4) '=' := by
    simp [b64Pad]
  refine ⟨?_, ?_, ?_, ?_, ?_⟩
  · have hpadlen :
        (String.mk (List.replicate ((4 - data.length % 4) % 4) '=')).length =
          (4 - data.length % 4) % 4 := by
      show (List.replicate ((4 - data.length % 4) % 4) '=').length = _
      exact List.length_replicate _ _
    have hlen : (b64Pad data).length =
        data.length + (4 - data.length % 4) % 4 := by
      rw [b64Pad, String.length_append, hpadlen]
    rw [hlen]
    omega
  · rw [pyStartsWith, hdata]
    exact listStartsWith_append _ _
  · intro c hc
    rw [hdata] at hc
    have hc2 : c ∈ List.replicate ((4 - data.length % 4) % 4) '=' := by
      have : data.data.length = data.length := rfl
      rw [this] at hc
      simpa [List.drop_left] using hc
    exact List.eq_of_mem_replicate hc2
  · intro h
    simp [decodeDataText, h]
  · intro hall
    have hsel : ∀ p ∈ gatherParts t,
        plainSelect p = none ∧ htmlSelect p = none := by
      intro p hp
      have hraw : (if ¬ (p.data.getD "") = "" then
          decodeDataText (p.data.getD "") else "") = "" := by
        by_cases hd0 : p.data.getD "" = ""
        · simp [hd0]
        · cases hd : p.data with
          | none => simp [hd] at hd0
          | some d =>
            have hfail := hall p hp d hd
            simp [hd, decodeDataText, hfail]
      constructor
      · simp [plainSelect, hraw]
      · simp [htmlSelect, hraw]
    have hplain : plainRawsOf t = [] := by
      rw [plainRawsOf, List.filterMap_eq_nil_iff]
      exact fun p hp => (hsel p hp).1
    have hhtml : htmlRawsOf t = [] := by
      rw [htmlRawsOf, List.filterMap_eq_nil_iff]
      exact fun p hp => (hsel p hp).2
    cases ht : t.data with
    | none => simp [extractPlaintext, chunksOf_eq, hplain, hhtml, ht]
    | some d =>
      by_cases hd0 : d = ""
      · simp [extractPlaintext, chunksOf_eq, hplain, hhtml, ht, hd0]
      · have hfail := hall t (self_mem_gatherParts t) d ht
        simp [extractPlaintext, chunksOf_eq, hplain, hhtml, ht, hd0, hfail]

/-- C8 witness: the malformed input of one data character fails to decode,
yields empty text, and a node carrying it extracts to the empty string;
its padded form has length four. -/
theorem C8_witness :
    b64urlDecode "a" = none ∧
    (b64Pad "a").length % 4 = 0 ∧
    decodeDataText "a" = "" ∧
    extractPlaintext (some c8Tree) = "" := by
  refine ⟨rfl, (C8_decode_never_raises "a" c8Tree).1, ?_, ?_⟩
  · exact (C8_decode_never_raises "a" c8Tree).2.2.2.1 rfl
  · apply (C8_decode_never_raises "a" c8Tree).2.2.2.2
    intro p hp d hd
    have hpc : p = c8Tree := by
      simpa [c8Tree, gatherParts, gatherPartsList] using hp
    subst hpc
    have hda : d = "a" := by
      have : some "a" = some d := by simpa [c8Tree, MsgPart.data] using hd
      exact (Option.some.inj this).symm
    subst hda
    rfl

end SmartEmail

namespace SmartEmail

/-! ## Orchestrator lemmas -/

theorem foldl_batchLoopStep (now : String) (l : List (MsgInfo × ClassResult))
    (acc : List EmailItem × List String) :
    l.foldl (batchLoopStep now) acc =
      (acc.1 ++ l.filterMap (batchSelItem now),
       acc.2 ++ (l.filterMap (batchSelItem now)).map (fun it => it.id)) := by
  induction l generalizing acc with
  | nil => simp
  | cons pr rest ih =>
    rw [List.foldl_cons, ih]
    by_cases h1 : pr.2.success = true
    · by_cases h2 : pr.2.readCats.length < 2
      · have h2t : (pr.2.readCats.take 2).length < 2 := by
          rw [List.length_take]; omega
        simp [batchLoopStep, batchSelItem, h1, h2, h2t]
      · have h2t : ¬ (pr.2.readCats.take 2).length < 2 := by
          rw [List.length_take]; omega
        simp [batchLoopStep, batchSelItem, h1, h2, h2t, mkItem]
    · simp [batchLoopStep, batchSelItem, h1]

theorem batchBranch_eq (msgs : List MsgInfo) (results : List ClassResult)
    (now : String) :
    batchBranch msgs results now =
      ((msgs.zip results).filterMap (batchSelItem now),
       ((msgs.zip results).filterMap (batchSelItem now)).map
         (fun it => it.id)) := by
  simp [batchBranch, foldl_batchLoopStep]

theorem batchSelItem_id (now : String) (pr : MsgInfo × ClassResult)
    (it : EmailItem) (h : batchSelItem now pr = some it) : it.id = pr.1.id := by
  unfold batchSelItem at h
  split_ifs at h
  cases h
  rfl

theorem batchSelItem_cats (now : String) (pr : MsgInfo × ClassResult)
    (it : EmailItem) (h : batchSelItem now pr = some it) :
    it.categories.length = 2 := by
  unfold batchSelItem at h
  split_ifs at h with h1 h2
  cases h
  have hle : (pr.2.readCats.take 2).length ≤ 2 :=
    List.length_take_le 2 pr.2.readCats
  show (pr.2.readCats.take 2).length = 2
  omega

theorem fallbackItem_id (c : ClassifierModel) (now : String) (m : MsgInfo)
    (it : EmailItem) (h : fallbackItem c now m = some it) : it.id = m.id := by
  unfold fallbackItem at h
  cases hm : modelPredictFn c m.subject m.body with
  | none => rw [hm] at h; cases h
  | some cats =>
    rw [hm] at h
    have h2 : (if ¬ cats.length = 2 then (none : Option EmailItem)
        else some (mkItem m cats now)) = some it := h
    by_cases hl : cats.length = 2
    · rw [if_neg (not_not_intro hl)] at h2
      cases h2
      rfl
    · rw [if_pos hl] at h2
      cases h2

theorem fallbackItem_cats (c : ClassifierModel) (now : String) (m : MsgInfo)
    (it : EmailItem) (h : fallbackItem c now m = some it) :
    it.categories.length = 2 := by
  unfold fallbackItem at h
  cases hm : modelPredictFn c m.subject m.body with
  | none => rw [hm] at h; cases h
  | some cats =>
    rw [hm] at h
    have h2 : (if ¬ cats.length = 2 then (none : Option EmailItem)
        else some (mkItem m cats now)) = some it := h
    by_cases hl : cats.length = 2
    · rw [if_neg (not_not_intro hl)] at h2
      cases h2
      exact hl
    · rw [if_pos hl] at h2
      cases h2

theorem core_processed_eq (c : ClassifierModel)
    (fetch : String → Option MsgInfo) (now : String)
    (ids processedIds : List String) (maxResults : Nat)
    (batchOutcome : List MsgInfo → Except PyErr (List ClassResult)) :
    (fetchAndClassifyCore c fetch now ids processedIds maxResults
        batchOutcome).processed =
      coreItems c fetch now ids processedIds maxResults batchOutcome := by
  unfold fetchAndClassifyCore coreItems
  by_cases hm : messagesDataOf fetch ids processedIds maxResults = []
  · rw [hm]
    cases hb : batchOutcome [] with
    | ok results => simp [hb]
    | error e => simp [hb]
  · cases hb : batchOutcome (messagesDataOf fetch ids processedIds
        maxResults) with
    | ok results => simp [hm, hb, batchBranch_eq]
    | error e => simp [hm, hb, fallbackBranch]

theorem core_adds_eq (c : ClassifierModel)
    (fetch : String → Option MsgInfo) (now : String)
    (ids processedIds : List String) (maxResults : Nat)
    (batchOutcome : List MsgInfo → Except PyErr (List ClassResult)) :
    (fetchAndClassifyCore c fetch now ids processedIds maxResults
        batchOutcome).trace =
      (coreItems c fetch now ids processedIds maxResults
        batchOutcome).map (fun r => StoreEvent.addProcessed r.id) ++
      (if coreItems c fetch now ids processedIds maxResults
          batchOutcome = [] then []
       else [StoreEvent.upsertMany
         (coreItems c fetch now ids processedIds maxResults
           batchOutcome)]) := by
  unfold fetchAndClassifyCore coreItems
  by_cases hm : messagesDataOf fetch ids processedIds maxResults = []
  · rw [hm]
    cases hb : batchOutcome [] with
    | ok results => simp [hb]
    | error e => simp [hb]
  · cases hb : batchOutcome (messagesDataOf fetch ids processedIds
        maxResults) with
    | ok results =>
      simp only [hb, if_neg hm, batchBranch_eq]
      rw [List.map_map]
      rfl
    | error e =>
      simp only [hb, if_neg hm, fallbackBranch]
      rw [List.map_map]
      rfl

theorem core_newCount_eq (c : ClassifierModel)
    (fetch : String → Option MsgInfo) (now : String)
    (ids processedIds : List String) (maxResults : Nat)
    (batchOutcome : List MsgInfo → Except PyErr (List ClassResult)) :
    (fetchAndClassifyCore c fetch now ids processedIds maxResults
        batchOutcome).newCount =
      (coreItems c fetch now ids processedIds maxResults
        batchOutcome).length := by
  unfold fetchAndClassifyCore coreItems
  by_cases hm : messagesDataOf fetch ids processedIds maxResults = []
  · rw [hm]
    cases hb : batchOutcome [] with
    | ok results => simp [hb]
    | error e => simp [hb]
  · cases hb : batchOutcome (messagesDataOf fetch ids processedIds
        maxResults) with
    | ok results => simp [hm, hb, batchBranch_eq]
    | error e => simp [hm, hb, fallbackBranch]

theorem markedIds_append (l1 l2 : List StoreEvent) :
    markedIds (l1 ++ l2) = markedIds l1 ++ markedIds l2 := by
  simp [markedIds]

theorem markedIds_adds (items : List EmailItem) :
    markedIds (items.map (fun r => StoreEvent.addProcessed r.id)) =
      items.map (fun r => r.id) := by
  induction items with
  | nil => rfl
  | cons a rest ih =>
    simp only [List.map_cons, markedIds, List.filterMap_cons] at ih ⊢
    simp only [ih]

theorem persistedIds_append (l1 l2 : List StoreEvent) :
    persistedIds (l1 ++ l2) = persistedIds l1 ++ persistedIds l2 := by
  simp [persistedIds]

theorem persistedIds_adds (items : List EmailItem) :
    persistedIds (items.map (fun r => StoreEvent.addProcessed r.id)) = [] := by
  induction items with
  | nil => rfl
  | cons a rest ih =>
    simp only [List.map_cons, persistedIds, List.flatMap_cons] at ih ⊢
    simp only [ih]
    rfl

theorem persistedIds_upsert (recs : List EmailItem) :
    persistedIds [StoreEvent.upsertMany recs] =
      recs.map (fun r => r.id) := by
  simp [persistedIds]

theorem markedIds_core (c : ClassifierModel)
    (fetch : String → Option MsgInfo) (now : String)
    (ids processedIds : List String) (maxResults : Nat)
    (batchOutcome : List MsgInfo → Except PyErr (List ClassResult)) :
    markedIds (fetchAndClassifyCore c fetch now ids processedIds maxResults
        batchOutcome).trace =
      (fetchAndClassifyCore c fetch now ids processedIds maxResults
        batchOutcome).processed.map (fun r => r.id) := by
  rw [core_adds_eq, core_processed_eq, markedIds_append, markedIds_adds]
  by_cases hi : coreItems c fetch now ids processedIds maxResults
      batchOutcome = []
  · simp [hi, markedIds]
  · simp [hi, markedIds]

theorem persistedIds_core (c : ClassifierModel)
    (fetch : String → Option MsgInfo) (now : String)
    (ids processedIds : List String) (maxResults : Nat)
    (batchOutcome : List MsgInfo → Except PyErr (List ClassResult)) :
    persistedIds (fetchAndClassifyCore c fetch now ids processedIds
        maxResults batchOutcome).trace =
      (fetchAndClassifyCore c fetch now ids processedIds maxResults
        batchOutcome).processed.map (fun r => r.id) := by
  rw [core_adds_eq, core_processed_eq, persistedIds_append, persistedIds_adds]
  by_cases hi : coreItems c fetch now ids processedIds maxResults
      batchOutcome = []
  · simp [hi, persistedIds]
  · simp [hi, persistedIds_upsert]

theorem zip_pair_unique (msgs : List MsgInfo) (results : List ClassResult)
    (h : msgs.Nodup) :
    ∀ pr ∈ msgs.zip results, ∀ pr2 ∈ msgs.zip results,
      pr.1 = pr2.1 → pr = pr2 := by
  induction msgs generalizing results with
  | nil => intro pr hpr; simp at hpr
  | cons m ms ih =>
    cases results with
    | nil => intro pr hpr; simp at hpr
    | cons r rs =>
      intro pr hpr pr2 hpr2 heq
      rw [List.zip_cons_cons, List.mem_cons] at hpr hpr2
      rcases List.nodup_cons.1 h with ⟨hm, hnd⟩
      rcases hpr with h1 | h1 <;> rcases hpr2 with h2 | h2
      · rw [h1, h2]
      · exfalso
        subst h1
        have hmem : pr2.1 ∈ ms := (List.of_mem_zip h2).1
        rw [← heq] at hmem
        exact hm hmem
      · exfalso
        subst h2
        have hmem : pr.1 ∈ ms := (List.of_mem_zip h1).1
        rw [heq] at hmem
        exact hm hmem
      · exact ih rs hnd pr h1 pr2 h2 heq

/-! ## Claim theorems for the orchestrator (C1, C3, C4, C5) -/

/-- C1 counterexample: in a call where one message is fetched and
classified successfully, the store trace adds the ID of the message to the
processed set strictly before the record write: scanning the trace in
program order, the `addProcessed` event is not preceded by any upsert
containing the record, so the claim that an ID is never added before its
record has been durably written is false — even though the call does
persist one new record. -/
theorem C1_counterexample :
    addsAfterPersist
      (fetchAndClassify okClassifier stubFetch "T0" ["m1"] [] 30).trace []
      = false ∧
    (fetchAndClassify okClassifier stubFetch "T0" ["m1"] [] 30).newCount
      = 1 := by
  exact ⟨rfl, rfl⟩

/-- C1 (amended): at completion of a `/fetch-and-classify` call, the set
of IDs added to the processed store equals (as an ordered list) the set of
IDs of the records written to the record store — the marked-iff-persisted
half of the claim — but the trace always consists of all the
`addProcessed` events first, during classification, followed by the
single `upsert_many` that durably writes the records: each ID is marked
before, not after, its record is durably written. -/
theorem C1_amended_marking_vs_persistence (c : ClassifierModel)
    (fetch : String → Option MsgInfo) (now : String)
    (ids processedIds : List String) (maxResults : Nat)
    (batchOutcome : List MsgInfo → Except PyErr (List ClassResult)) :
    markedIds (fetchAndClassifyCore c fetch now ids processedIds maxResults
        batchOutcome).trace =
      persistedIds (fetchAndClassifyCore c fetch now ids processedIds
        maxResults batchOutcome).trace ∧
    (fetchAndClassifyCore c fetch now ids processedIds maxResults
        batchOutcome).trace =
      (fetchAndClassifyCore c fetch now ids processedIds maxResults
        batchOutcome).processed.map
          (fun r => StoreEvent.addProcessed r.id) ++
      (if (fetchAndClassifyCore c fetch now ids processedIds maxResults
          batchOutcome).processed = [] then []
       else [StoreEvent.upsertMany
         (fetchAndClassifyCore c fetch now ids processedIds maxResults
           batchOutcome).processed]) := by
  constructor
  · rw [markedIds_core, persistedIds_core]
  · rw [core_processed_eq]
    exact core_adds_eq c fetch now ids processedIds maxResults batchOutcome

/-- C3: when the whole batch-classification call raises, every message of
the identical fetched set is attempted individually through
`model_predict_fn`; each item that succeeds is persisted with exactly two
categories; and if the fallback fails for every item too, the call
returns zero new records and an empty trace rather than an error. -/
theorem C3_whole_batch_failure_fallback (c : ClassifierModel)
    (fetch : String → Option MsgInfo) (now : String)
    (ids processedIds : List String) (maxResults : Nat)
    (batchOutcome : List MsgInfo → Except PyErr (List ClassResult))
    (e : PyErr)
    (hb : batchOutcome (messagesDataOf fetch ids processedIds maxResults) =
      .error e) :
    (fetchAndClassifyCore c fetch now ids processedIds maxResults
        batchOutcome).processed =
      (messagesDataOf fetch ids processedIds maxResults).filterMap
        (fallbackItem c now) ∧
    (∀ m ∈ messagesDataOf fetch ids processedIds maxResults, ∀ it,
      fallbackItem c now m = some it →
        it ∈ (fetchAndClassifyCore c fetch now ids processedIds maxResults
          batchOutcome).processed ∧
        it.categories.length = 2) ∧
    ((∀ m ∈ messagesDataOf fetch ids processedIds maxResults,
        fallbackItem c now m = none) →
      fetchAndClassifyCore c fetch now ids processedIds maxResults
          batchOutcome =
        { newCount := 0, processed := [], trace := [] }) ∧
    (¬ (fetchAndClassifyCore c fetch now ids processedIds maxResults
        batchOutcome).processed = [] →
      StoreEvent.upsertMany (fetchAndClassifyCore c fetch now ids
        processedIds maxResults batchOutcome).processed ∈
        (fetchAndClassifyCore c fetch now ids processedIds maxResults
          batchOutcome).trace) := by
  have hitems : coreItems c fetch now ids processedIds maxResults
      batchOutcome =
      (messagesDataOf fetch ids processedIds maxResults).filterMap
        (fallbackItem c now) := by
    unfold coreItems
    rw [hb]
  refine ⟨?_, ?_, ?_, ?_⟩
  · rw [core_processed_eq, hitems]
  · intro m hm it hit
    constructor
    · rw [core_processed_eq, hitems]
      exact List.mem_filterMap.2 ⟨m, hm, hit⟩
    · exact fallbackItem_cats c now m it hit
  · intro hall
    have hz : coreItems c fetch now ids processedIds maxResults
        batchOutcome = [] := by
      rw [hitems]
      exact List.filterMap_eq_nil_iff.2 hall
    have hp := core_processed_eq c fetch now ids processedIds maxResults
      batchOutcome
    have ht := core_adds_eq c fetch now ids processedIds maxResults
      batchOutcome
    have hn := core_newCount_eq c fetch now ids processedIds maxResults
      batchOutcome
    rw [hz] at hp ht hn
    cases hcore : fetchAndClassifyCore c fetch now ids processedIds
        maxResults batchOutcome with
    | mk n p t =>
      rw [hcore] at hp ht hn
      simp only at hp ht hn
      simp [hp, hn]
      simpa using ht
  · intro hne
    rw [core_processed_eq] at hne ⊢
    rw [core_adds_eq]
    simp [hne]

/-- C4: the orchestrator batch call site passes the keyword argument
`batch_size`, which `EmailClassifier.predict_batch` does not accept, so
whenever the classifier is loaded the whole-batch call raises `TypeError`
(and it raises `RuntimeError` otherwise); consequently the
result always equals the fallback-only computation that classifies the
fetched set one message at a time. -/
theorem C4_batch_call_type_error (c : ClassifierModel)
    (fetch : String → Option MsgInfo) (now : String)
    (ids processedIds : List String) (maxResults : Nat) :
    kwargsMismatch predictBatchAcceptedKwargs batchCallSiteKwargs = true ∧
    (c.loaded = true → ∀ msgs : List MsgInfo,
      attemptBatch c msgs = .error PyErr.typeError) ∧
    fetchAndClassify c fetch now ids processedIds maxResults =
      fallbackOnly c fetch now ids processedIds maxResults := by
  refine ⟨rfl, ?_, ?_⟩
  · intro hl msgs
    have hk : kwargsMismatch predictBatchAcceptedKwargs
        batchCallSiteKwargs = true := rfl
    simp [attemptBatch, hl, hk]
  · unfold fetchAndClassify fallbackOnly fetchAndClassifyCore
    by_cases hm : messagesDataOf fetch ids processedIds maxResults = []
    · simp [hm]
    · have he : ∃ e2, attemptBatch c (messagesDataOf fetch ids processedIds
          maxResults) = .error e2 := by
        cases hcl : c.loaded with
        | false => exact ⟨PyErr.runtimeError, by simp [attemptBatch, hcl]⟩
        | true =>
          refine ⟨PyErr.typeError, ?_⟩
          have hk : kwargsMismatch predictBatchAcceptedKwargs
              batchCallSiteKwargs = true := rfl
          simp [attemptBatch, hcl, hk]
      obtain ⟨e2, he⟩ := he
      simp [hm, he]

/-- C4 witness: with a loaded classifier the batch attempt is exactly a
`TypeError`, and a one-message call equals its fallback-only
computation. -/
theorem C4_witness :
    attemptBatch okClassifier [] = .error PyErr.typeError ∧
    fetchAndClassify okClassifier stubFetch "T0" ["m1"] [] 30 =
      fallbackOnly okClassifier stubFetch "T0" ["m1"] [] 30 := by
  exact ⟨(C4_batch_call_type_error okClassifier stubFetch "T0" ["m1"] []
      30).2.1 rfl [],
    (C4_batch_call_type_error okClassifier stubFetch "T0" ["m1"] []
      30).2.2⟩

/-- C3 witness: with a loaded classifier whose every prediction fails,
the batch attempt errors, every fetched message is attempted through the
fallback, and the call returns zero new records with an empty trace. -/
theorem C3_witness :
    fetchAndClassifyCore failClassifier stubFetch "T0" ["m1"] [] 30
        (attemptBatch failClassifier) =
      { newCount := 0, processed := [], trace := [] } ∧
    (fetchAndClassifyCore failClassifier stubFetch "T0" ["m1"] [] 30
        (attemptBatch failClassifier)).processed =
      (messagesDataOf stubFetch ["m1"] [] 30).filterMap
        (fallbackItem failClassifier "T0") := by
  have h := C3_whole_batch_failure_fallback failClassifier stubFetch "T0"
    ["m1"] [] 30 (attemptBatch failClassifier) PyErr.typeError rfl
  exact ⟨h.2.2.1 (by decide), h.1⟩

/-- C5: every record the call persists carries exactly two categories, the
IDs marked processed are exactly the IDs of the persisted records, and —
in each classification branch — a message whose result is unsuccessful or
carries fewer than two categories contributes no record and no
processed-ID mark, provided message IDs are distinct. -/
theorem C5_dropped_items_not_persisted :
    (∀ (c : ClassifierModel) (fetch : String → Option MsgInfo)
       (now : String) (ids processedIds : List String) (maxResults : Nat)
       (batchOutcome : List MsgInfo → Except PyErr (List ClassResult)),
      (∀ r ∈ (fetchAndClassifyCore c fetch now ids processedIds maxResults
          batchOutcome).processed, r.categories.length = 2) ∧
      markedIds (fetchAndClassifyCore c fetch now ids processedIds
          maxResults batchOutcome).trace =
        (fetchAndClassifyCore c fetch now ids processedIds maxResults
          batchOutcome).processed.map (fun r => r.id)) ∧
    (∀ (msgs : List MsgInfo) (results : List ClassResult) (now : String),
      ∀ pr ∈ msgs.zip results,
        (¬ pr.2.success = true ∨ pr.2.readCats.length < 2) →
        (msgs.map (fun m => m.id)).Nodup →
        pr.1.id ∉ (batchBranch msgs results now).2 ∧
        (∀ r ∈ (batchBranch msgs results now).1, ¬ r.id = pr.1.id)) ∧
    (∀ (c : ClassifierModel) (msgs : List MsgInfo) (now : String),
      ∀ m ∈ msgs, fallbackItem c now m = none →
        (msgs.map (fun m2 => m2.id)).Nodup →
        m.id ∉ (fallbackBranch c msgs now).2 ∧
        (∀ r ∈ (fallbackBranch c msgs now).1, ¬ r.id = m.id)) := by
  refine ⟨?_, ?_, ?_⟩
  · intro c fetch now ids processedIds maxResults batchOutcome
    constructor
    · intro r hr
      rw [core_processed_eq] at hr
      unfold coreItems at hr
      cases hb : batchOutcome (messagesDataOf fetch ids processedIds
          maxResults) with
      | ok results =>
        rw [hb] at hr
        have hr2 : r ∈ ((messagesDataOf fetch ids processedIds
            maxResults).zip results).filterMap (batchSelItem now) := hr
        obtain ⟨pr, _, hsel⟩ := List.mem_filterMap.1 hr2
        exact batchSelItem_cats now pr r hsel
      | error e =>
        rw [hb] at hr
        have hr2 : r ∈ (messagesDataOf fetch ids processedIds
            maxResults).filterMap (fallbackItem c now) := hr
        obtain ⟨m, _, hit⟩ := List.mem_filterMap.1 hr2
        exact fallbackItem_cats c now m r hit
    · exact markedIds_core c fetch now ids processedIds maxResults
        batchOutcome
  · intro msgs results now pr hpr hfail hnd
    have hnodup : msgs.Nodup := hnd.of_map
    have hnone : batchSelItem now pr = none := by
      by_cases hs : pr.2.success = true
      · rcases hfail with hf | hf
        · exact absurd hs hf
        · have hlen : (pr.2.readCats.take 2).length < 2 := by
            rw [List.length_take]; omega
          simp [batchSelItem, hs, hlen, hf]
      · simp [batchSelItem, hs]
    have hsecond : ∀ r ∈ (batchBranch msgs results now).1,
        ¬ r.id = pr.1.id := by
      intro r hr hid
      rw [batchBranch_eq] at hr
      obtain ⟨pr2, hpr2, hsel⟩ := List.mem_filterMap.1 hr
      have hid2 : r.id = pr2.1.id := batchSelItem_id now pr2 r hsel
      have hfst : pr2.1 = pr.1 := by
        have h1 : pr.1 ∈ msgs := (List.of_mem_zip hpr).1
        have h2 : pr2.1 ∈ msgs := (List.of_mem_zip hpr2).1
        exact List.inj_on_of_nodup_map hnd h2 h1 (by rw [← hid2]; exact hid)
      have heqpr : pr2 = pr :=
        zip_pair_unique msgs results hnodup pr2 hpr2 pr hpr hfst
      rw [heqpr, hnone] at hsel
      cases hsel
    constructor
    · intro hmem
      have hmem2 : pr.1.id ∈
          ((msgs.zip results).filterMap (batchSelItem now)).map
            (fun it => it.id) := by
        rw [batchBranch_eq] at hmem
        exact hmem
      obtain ⟨r, hr, hid⟩ := List.mem_map.1 hmem2
      exact hsecond r (by rw [batchBranch_eq]; exact hr) hid
    · exact hsecond
  · intro c msgs now m hm hnone hnd
    have hsecond : ∀ r ∈ (fallbackBranch c msgs now).1, ¬ r.id = m.id := by
      intro r hr hid
      have hr2 : r ∈ msgs.filterMap (fallbackItem c now) := hr
      obtain ⟨m2, hm2, hit⟩ := List.mem_filterMap.1 hr2
      have hid2 : r.id = m2.id := fallbackItem_id c now m2 r hit
      have heqm : m2 = m :=
        List.inj_on_of_nodup_map hnd hm2 hm (by rw [← hid2]; exact hid)
      rw [heqm, hnone] at hit
      cases hit
    constructor
    · intro hmem
      have hmem2 : m.id ∈
          (msgs.filterMap (fallbackItem c now)).map (fun it => it.id) :=
        hmem
      obtain ⟨r, hr, hid⟩ := List.mem_map.1 hmem2
      exact hsecond r hr hid
    · exact hsecond

/-- C5 witness: a successfully classified call persists only two-category
records, and a message with an unsuccessful result is excluded from the
processed-ID additions of both classification branches. -/
theorem C5_witness :
    (∀ r ∈ (fetchAndClassifyCore okClassifier stubFetch "T0" ["m1"] [] 30
        (attemptBatch okClassifier)).processed, r.categories.length = 2) ∧
    c5Msg.id ∉ (batchBranch [c5Msg] [c5FailResult] "T0").2 ∧
    c5Msg.id ∉ (fallbackBranch failClassifier [c5Msg] "T0").2 := by
  refine ⟨(C5_dropped_items_not_persisted.1 okClassifier stubFetch "T0"
      ["m1"] [] 30 (attemptBatch okClassifier)).1, ?_, ?_⟩
  · exact (C5_dropped_items_not_persisted.2.1 [c5Msg] [c5FailResult] "T0"
      (c5Msg, c5FailResult) (by decide) (Or.inl (by decide))
      (by decide)).1
  · exact (C5_dropped_items_not_persisted.2.2 failClassifier [c5Msg] "T0"
      c5Msg (by decide) (by decide) (by decide)).1

/-! ## Claim theorems for the record store (C2) and filtering (C6) -/

/-- C2 counterexample: the very first mutation on a fresh store writes the
wrapping-object shape holding a nested id-to-record map, not the flat
list the claim requires of every write. -/
theorem C2_counterexample :
    (storeUpsertMany storeInitFile [c2Item]).isFlatList = false ∧
    (storeUpsertMany storeInitFile [c2Item]).isWrappingMap = true := by
  exact ⟨rfl, rfl⟩

/-- C2 (amended): every document `ProcessedEmailsStore` writes — the
initial file, `upsert` with a non-blank ID, `upsert_many`, and
`overwrite_all` — is the wrapping object holding a nested id-to-record
map, never the flat list; and a flat-list file is not accepted on read:
it is read as the empty map. -/
theorem C2_amended_writes_wrapping_shape (file : StoreFile)
    (item : EmailItem) (items : List EmailItem) :
    (¬ pyStrip item.id = "" →
      (storeUpsert file item).isWrappingMap = true) ∧
    (storeUpsertMany file items).isWrappingMap = true ∧
    (storeOverwriteAll items).isWrappingMap = true ∧
    storeInitFile.isWrappingMap = true ∧
    readEmailsMap (StoreFile.flatList items) = [] := by
  refine ⟨?_, rfl, rfl, rfl, rfl⟩
  intro hid
  unfold storeUpsert
  rw [if_neg hid]
  rfl

/-- C2 witness: upserting a record with a non-blank ID over a flat-list
file writes the wrapping-object shape. -/
theorem C2_witness :
    (storeUpsert (StoreFile.flatList []) c2Item).isWrappingMap = true := by
  exact (C2_amended_writes_wrapping_shape (StoreFile.flatList []) c2Item
    []).1 (by decide)

/-- C6: for blank-free listed IDs, the filtering step drops exactly the
IDs already in the processed store and truncates the remainder to the
requested count: the surviving list is the processed-free filter of the
listing, truncated, hence an order-preserving sublist of the listing,
disjoint from the processed set, of length the minimum of the unprocessed
count and the requested count.  Only these surviving IDs are passed to
fetching and classification. -/
theorem C6_filtering (ids processedIds : List String) (maxResults : Nat)
    (hne : ∀ m ∈ ids, ¬ m = "") :
    idsNewOf ids processedIds maxResults =
      (ids.filter (fun m => ¬ processedIds.contains m)).take maxResults ∧
    List.Sublist (idsNewOf ids processedIds maxResults) ids ∧
    (∀ m ∈ idsNewOf ids processedIds maxResults,
      ¬ processedIds.contains m = true) ∧
    (idsNewOf ids processedIds maxResults).length =
      min (ids.filter (fun m => ¬ processedIds.contains m)).length
        maxResults := by
  have hfc : idsNewAll ids processedIds =
      ids.filter (fun m => ¬ processedIds.contains m) := by
    unfold idsNewAll
    apply List.filter_congr
    intro m hm
    simp [hne m hm]
  have h0 : idsNewOf ids processedIds maxResults =
      (ids.filter (fun m => ¬ processedIds.contains m)).take maxResults := by
    rw [idsNewOf, hfc]
  refine ⟨h0, ?_, ?_, ?_⟩
  · rw [h0]
    exact (List.take_sublist _ _).trans (List.filter_sublist _)
  · intro m hm
    rw [h0] at hm
    have hm2 := List.mem_of_mem_take hm
    have := List.of_mem_filter hm2
    simpa using this
  · rw [h0, List.length_take, Nat.min_comm]

/-- C6 witness: forty blank-free listed IDs of which five are processed,
with a requested count of thirty, yield exactly thirty surviving IDs, all
unprocessed, in listing order. -/
theorem C6_witness :
    (∀ m ∈ c6Ids, ¬ m = "") ∧
    (idsNewOf c6Ids c6Processed 30).length = 30 ∧
    (∀ m ∈ idsNewOf c6Ids c6Processed 30,
      ¬ c6Processed.contains m = true) ∧
    List.Sublist (idsNewOf c6Ids c6Processed 30) c6Ids := by
  have h := C6_filtering c6Ids c6Processed 30 (by decide)
  refine ⟨by decide, ?_, h.2.2.1, h.2.1⟩
  rw [h.2.2.2]
  decide

/-! ## Claim theorem for the message lister (C10) -/

theorem listLoop_reqs_spec (provider : Nat → PageResult) (maxResults : Int)
    (fuel : Nat) :
    ∀ (idx : Nat) (ids : List String) (remaining : Int)
      (reqs : List (Int × Int)),
      remaining = maxResults - ids.length →
      (∀ pr ∈ reqs, pr.2 = min (maxResults - pr.1) 100) →
      ∀ pr ∈ (listLoop provider maxResults fuel idx ids remaining reqs).2,
        pr.2 = min (maxResults - pr.1) 100 := by
  induction fuel with
  | zero =>
    intro idx ids remaining reqs hinv hprev pr hpr
    exact hprev pr hpr
  | succ fuel ih =>
    intro idx ids remaining reqs hinv hprev pr hpr
    have hnew : ∀ pr2 ∈ reqs ++ [((ids.length : Int), min remaining 100)],
        pr2.2 = min (maxResults - pr2.1) 100 := by
      intro pr2 hpr2
      rcases List.mem_append.1 hpr2 with h | h
      · exact hprev pr2 h
      · rw [List.mem_singleton.1 h, hinv]
    rw [listLoop] at hpr
    by_cases hrem : remaining ≤ 0
    · rw [if_pos hrem] at hpr
      exact hprev pr hpr
    · rw [if_neg hrem] at hpr
      cases hp : provider idx with
      | fail =>
        simp only [hp] at hpr
        exact hnew pr hpr
      | page messages hasNext =>
        simp only [hp] at hpr
        by_cases hmsg : messages = []
        · rw [if_pos hmsg] at hpr
          exact hnew pr hpr
        · rw [if_neg hmsg] at hpr
          by_cases hge : ((ids ++ truthyIds messages).length : Int) ≥
              maxResults
          · rw [if_pos hge] at hpr
            exact hnew pr hpr
          · rw [if_neg hge] at hpr
            by_cases hnx : hasNext = true
            · rw [if_neg (by simp [hnx])] at hpr
              exact ih (idx + 1) (ids ++ truthyIds messages)
                (maxResults - (ids ++ truthyIds messages).length)
                (reqs ++ [((ids.length : Int), min remaining 100)])
                rfl hnew pr hpr
            · rw [if_pos (by simp [hnx])] at hpr
              exact hnew pr hpr

/-- C10: for any provider behaviour, any fuel, and a positive requested
maximum, `list_message_ids` returns at most `maxResults` IDs; every page
request it issues asks for the minimum of the outstanding remainder and
one hundred; a page-level failure stops the loop and hands back exactly
the IDs accumulated so far; and when the very first page fails the call
returns the empty list — a normal return, never an exception. -/
theorem C10_listing_bounded_best_effort (provider : Nat → PageResult)
    (maxResults : Int) (fuel : Nat) (hmr : 1 ≤ maxResults) :
    ((listMessageIds provider maxResults fuel).1.length : Int) ≤
      maxResults ∧
    (∀ pr ∈ (listMessageIds provider maxResults fuel).2,
      pr.2 = min (maxResults - pr.1) 100) ∧
    (∀ (fuel2 idx : Nat) (ids : List String) (remaining : Int)
       (reqs : List (Int × Int)),
      provider idx = PageResult.fail → 0 < fuel2 → 0 < remaining →
      (listLoop provider maxResults fuel2 idx ids remaining reqs).1 =
        ids) ∧
    (provider 0 = PageResult.fail → 0 < fuel →
      (listMessageIds provider maxResults fuel).1 = []) := by
  have hinit : max 1 (if maxResults = 0 then 100 else maxResults) =
      maxResults := by
    rw [if_neg (by omega)]
    omega
  refine ⟨?_, ?_, ?_, ?_⟩
  · simp only [listMessageIds, pySliceTo]
    rw [if_pos (by omega : (0 : Int) ≤ maxResults)]
    have hlt := List.length_take_le maxResults.toNat
      (listLoop provider maxResults fuel 0 [] (max 1 (if maxResults = 0
        then 100 else maxResults)) []).1
    have h2 : (((listLoop provider maxResults fuel 0 [] (max 1
        (if maxResults = 0 then 100 else maxResults)) []).1.take
          maxResults.toNat).length : Int) ≤ (maxResults.toNat : Int) := by
      exact_mod_cast hlt
    rwa [Int.toNat_of_nonneg (by omega)] at h2
  · intro pr hpr
    have hpr2 : pr ∈ (listLoop provider maxResults fuel 0 [] (max 1
        (if maxResults = 0 then 100 else maxResults)) []).2 := hpr
    rw [hinit] at hpr2
    exact listLoop_reqs_spec provider maxResults fuel 0 [] maxResults []
      (by simp) (by simp) pr hpr2
  · intro fuel2 idx ids remaining reqs hfail hf2 hrem
    obtain ⟨f, rfl⟩ : ∃ f, fuel2 = f + 1 := ⟨fuel2 - 1, by omega⟩
    rw [listLoop, if_neg (by omega), hfail]
  · intro hfail hf
    obtain ⟨f, rfl⟩ : ∃ f, fuel = f + 1 := ⟨fuel - 1, by omega⟩
    simp only [listMessageIds]
    rw [listLoop, if_neg (by omega : ¬ max 1 (if maxResults = 0 then 100
      else maxResults) ≤ 0), hfail]
    simp [pySliceTo]

/-- C10 witness: an immediately failing provider with a requested maximum
of thirty yields the empty ID list within bound, and its single logged
request asked for thirty items. -/
theorem C10_witness :
    (listMessageIds (fun _ => PageResult.fail) 30 5).1 = [] ∧
    ((listMessageIds (fun _ => PageResult.fail) 30 5).1.length : Int) ≤
      30 ∧
    (∀ pr ∈ (listMessageIds (fun _ => PageResult.fail) 30 5).2,
      pr.2 = min (30 - pr.1) 100) := by
  have h := C10_listing_bounded_best_effort (fun _ => PageResult.fail) 30 5
    (by decide)
  exact ⟨h.2.2.2 rfl (by decide), h.1, h.2.1⟩
